import Mathlib

/-!
Verification of the routing core of `inspired_by_flask` (file
`src/inspired_by_flask/router/router.py`) against its specification.

The Python source is shallowly embedded below: pure functions become Lean
functions, the regular expressions `_URL_PARAMS_FINDER` and
`_URL_PARAMS_TYPE_FINDER` are embedded as executable backtracking matchers
with exactly the semantics of `re.findall` / `re.match` on those patterns,
Python exceptions become `Option` / `Except` results, and Python dicts become
association lists with in-place update (`dictInsert`), which preserves both
insertion order and key uniqueness exactly as CPython dicts do.

Handlers are opaque in the source (arbitrary callables stored by reference);
they are represented by natural-number identifiers, which is faithful because
the routing core never calls them, it only stores and returns them.
-/

deriving instance DecidableEq for Except

/-- Modelled from the spec: the `HttpMethod` enumeration is imported from
`http_utils`, a module that is not part of the repository snapshot; the spec
says a Verb is an enumerated, identity-comparable value, one of GET, POST. -/
inductive HttpMethod
  | GET
  | POST
deriving DecidableEq, BEq

/-- Typed values produced by the `UrlParamFormatter` converters (`int`,
`float`, `str`).  A Python `float` value is kept as the accepted literal
string, since no specified property of the routing core inspects the numeric
content of a float parameter. -/
inductive PyValue
  | int (n : Int)
  | float (lit : String)
  | str (s : String)
deriving DecidableEq, BEq

/-- Whitespace accepted (and stripped) by Python's `int()` / `float()`
constructors, restricted to the ASCII range. -/
def isPySpace (c : Char) : Bool :=
  c = ' ' || c = '\t' || c = '\n' || c = '\r' || c = '\x0b' || c = '\x0c'

/-- Value of an ASCII digit. -/
def digitVal (c : Char) : Nat := c.toNat - '0'.toNat

/-- A run of ASCII digits with single underscores allowed between digits
(CPython's integer-literal grammar for `int(str)`): no leading, trailing or
doubled underscore.  `acc` is the value of the digits consumed so far. -/
def digitsRun : List Char → Nat → Option Nat
  | [], acc => some acc
  | '_' :: c :: rest, acc =>
      if c.isDigit then digitsRun rest (acc * 10 + digitVal c) else none
  | c :: rest, acc =>
      if c.isDigit then digitsRun rest (acc * 10 + digitVal c) else none

/-- Nonempty digit run (underscores between digits allowed), returning its
value: the body of Python's base-10 integer parsing. -/
def digitsParse : List Char → Option Nat
  | [] => none
  | c :: rest => if c.isDigit then digitsRun rest (digitVal c) else none

/-- Modelled from the Python builtin `int(str)`, restricted to ASCII input:
optional surrounding whitespace, an optional sign, then a nonempty digit run
with single underscores allowed between digits.  (CPython additionally
accepts non-ASCII decimal digits; no property specified for this program
depends on those.)  `none` models a raised `ValueError`. -/
def pyIntParse (s : String) : Option Int :=
  let l := (((s.data.dropWhile isPySpace).reverse.dropWhile isPySpace).reverse)
  match l with
  | '+' :: rest => (digitsParse rest).map (fun n => (n : Int))
  | '-' :: rest => (digitsParse rest).map (fun n => -(n : Int))
  | rest => (digitsParse rest).map (fun n => (n : Int))

/-- Digit-run wellformedness (no value needed), for the float grammar. -/
def digitsOk (l : List Char) : Bool := (digitsParse l).isSome

/-- Mantissa of a Python float literal: `digits`, `digits.`, `.digits` or
`digits.digits`. -/
def floatMantissaOk (l : List Char) : Bool :=
  match l.splitOn '.' with
  | [d] => digitsOk d
  | [d, f] =>
      (!d.isEmpty || !f.isEmpty) &&
      (d.isEmpty || digitsOk d) && (f.isEmpty || digitsOk f)
  | _ => false

/-- Exponent part of a Python float literal: optional sign then digits. -/
def floatExpOk (l : List Char) : Bool :=
  match l with
  | '+' :: rest => digitsOk rest
  | '-' :: rest => digitsOk rest
  | rest => digitsOk rest

/-- Modelled from the Python builtin `float(str)`, restricted to ASCII input:
optional surrounding whitespace, optional sign, then `inf`, `infinity`, `nan`
(case-insensitive) or a decimal mantissa with optional exponent; underscores
follow the same rules as for `int`. -/
def pyFloatConvertible (s : String) : Bool :=
  let l := (((s.data.dropWhile isPySpace).reverse.dropWhile isPySpace).reverse)
  let core := match l with
    | '+' :: rest => rest
    | '-' :: rest => rest
    | rest => rest
  let lower := core.map Char.toLower
  if lower = "inf".data || lower = "infinity".data || lower = "nan".data then
    true
  else
    match core.splitOn 'e' with
    | [m] =>
        match core.splitOn 'E' with
        | [_] => floatMantissaOk m
        | [m', ex] => floatMantissaOk m' && floatExpOk ex
        | _ => false
    | [m, ex] => floatMantissaOk m && floatExpOk ex
    | _ => false

/-- The three converter classes actually instantiated by the source:
`UrlParamFormatter[int]`, `UrlParamFormatter[float]`, `UrlParamFormatter[str]`
(the values of `_PARAM_TYPE_MAPPER`).  The generic Python class holds the
converter callable; the three possible callables are enumerated here. -/
inductive UrlParamFormatter
  | int
  | float
  | str
deriving DecidableEq, BEq

/-- `UrlParamFormatter.convert`: apply the converter; `none` models a raised
`ValueError`.  `str(s)` is the identity on strings and never raises. -/
def UrlParamFormatter.convert : UrlParamFormatter → String → Option PyValue
  | .int, s => (pyIntParse s).map PyValue.int
  | .float, s => if pyFloatConvertible s then some (.float s) else none
  | .str, s => some (.str s)

/-- `UrlParamFormatter.is_convertable`: `convert` inside `try`, catching
`ValueError`. -/
def UrlParamFormatter.is_convertable (f : UrlParamFormatter) (s : String) : Bool :=
  (f.convert s).isSome

/-- Python `str.split("/")`: split on every slash, keeping empty parts;
`"".split("/") == [""]`. -/
def splitSegsAux (cur : List Char) : List Char → List String
  | [] => [String.mk cur.reverse]
  | '/' :: rest => String.mk cur.reverse :: splitSegsAux [] rest
  | c :: rest => splitSegsAux (c :: cur) rest

/-- Segments of a URL or template: `s.split("/")`. -/
def splitSegs (s : String) : List String := splitSegsAux [] s.data

/-!
The regex `_URL_PARAMS_TYPE_FINDER = \<((?P<type>.+):)?(?P<name>.+){1}\>`,
used via `.match` (anchored at the start, trailing input ignored).  `.`
matches anything but a newline; `.+` is greedy, the optional group is tried
before its absence, and backtracking tries shorter matches in decreasing
order.  `findQ l fuel` looks for the largest `q ≤ fuel`, `q ≥ 1`, such that
`l.take q` is the `name` group (nonempty, newline-free) and `l.get? q = '>'`.
-/

/-- Largest viable end position of the greedy `name` group (see above). -/
def findQ (l : List Char) : Nat → Option Nat
  | 0 => none
  | q + 1 =>
      if ((l.take (q + 1)).all fun c => c ≠ '\n') ∧ l.get? (q + 1) = some '>' then
        some (q + 1)
      else findQ l q

/-- Match `(?P<name>.+)\>` greedily against a prefix of `l`. -/
def nameMatch (l : List Char) : Option (List Char) :=
  (findQ l l.length).map fun q => l.take q

/-- Match `((?P<type>.+):)(?P<name>.+)\>` greedily against a prefix of `l`:
the greedy `type` group ends at the last usable colon, and for each candidate
colon the `name` group is matched greedily in the remainder before the colon
position backtracks. -/
def findP (l : List Char) : Nat → Option (List Char × List Char)
  | 0 => none
  | p + 1 =>
      if ((l.take (p + 1)).all fun c => c ≠ '\n') ∧ l.get? (p + 1) = some ':' then
        match nameMatch (l.drop (p + 2)) with
        | some nm => some (l.take (p + 1), nm)
        | none => findP l p
      else findP l p

/-- `_URL_PARAMS_TYPE_FINDER.match(s)`: `none` models a failed match, and a
success yields (`type` group or `None`, `name` group). -/
def typeFinderMatch (s : String) : Option (Option String × String) :=
  match s.data with
  | '<' :: rest =>
      match findP rest rest.length with
      | some (t, nm) => some (some (String.mk t), String.mk nm)
      | none => (nameMatch rest).map fun nm => ((none : Option String), String.mk nm)
  | _ => none

/-- `_URL_PARAMS_FINDER.findall(s)` for the pattern `(\<.+?\>)`: the
non-overlapping left-to-right matches, each the shortest `<c>` with `c`
nonempty and newline-free.  One structural pass suffices: outside a candidate
token, `<` opens one; inside, the first content character is consumed
unconditionally, a later `>` closes the token, and a newline kills the
candidate (no token can start strictly inside a killed candidate, because its
content would have to contain the newline or a `>` that would have closed the
candidate earlier).  The state is `none` outside a candidate and
`some cs` inside one with reversed content `cs`. -/
def findallAux : Option (List Char) → List Char → List (List Char)
  | _, [] => []
  | none, c :: rest =>
      if c = '<' then findallAux (some []) rest else findallAux none rest
  | some cs, c :: rest =>
      if c = '\n' then findallAux none rest
      else if c = '>' ∧ cs ≠ [] then
        ('<' :: (cs.reverse ++ ['>'])) :: findallAux none rest
      else findallAux (some (c :: cs)) rest

/-- All `<...>` tokens of a template, in order. -/
def findallTokens (s : String) : List (List Char) := findallAux none s.data

/-- Python dict assignment `d[k] = v`: update in place if the key is present
(keeping its position), else append.  Keys stay unique and insertion-ordered,
as in CPython. -/
def dictInsert {α : Type} (d : List (String × α)) (k : String) (v : α) :
    List (String × α) :=
  if d.any fun p => p.1 = k then
    d.map fun p => if p.1 = k then (k, v) else p
  else d ++ [(k, v)]

/-- The two ways `parse_url` raises `UrlFormatError`. -/
inductive UrlFormatError
  | lengthMismatch
  | literalMismatch
deriving DecidableEq

/-- The zip loop of `parse_url`: equal segment pairs are skipped, unequal
pairs require the template segment to match `_URL_PARAMS_TYPE_FINDER` (else
`UrlFormatError`) and record the path segment under the `name` group. -/
def parseSegs : List String → List String → List (String × String) →
    Except UrlFormatError (List (String × String))
  | [], _, acc => .ok acc
  | _ :: _, [], acc => .ok acc
  | f :: fs, r :: rs, acc =>
      if f = r then parseSegs fs rs acc
      else
        match typeFinderMatch f with
        | none => .error .literalMismatch
        | some (_, name) => parseSegs fs rs (dictInsert acc name r)

/-- `parse_url(url_format, url)`: raises on a segment-count mismatch, then
zips the segment lists.  (Python's `zip` truncates at the shorter list; after
the length guard the lists have equal length, and the `[], _ :: _` /
`_ :: _, []` clauses of `parseSegs` are unreachable but mirror the
truncation.) -/
def parse_url (url_format url : String) :
    Except UrlFormatError (List (String × String)) :=
  let url_format_list := splitSegs url_format
  let url_list := splitSegs url
  if url_format_list.length ≠ url_list.length then .error .lengthMismatch
  else parseSegs url_format_list url_list []

/-- `_PARAM_TYPE_MAPPER`, a `defaultdict` sending `"int"` to the integer
converter, `"float"` to the float converter and anything else — including the
absent-type case, where the lookup key is `None` — to `str`. -/
def mapType : Option String → UrlParamFormatter
  | some "int" => .int
  | some "float" => .float
  | _ => .str

/-- `from_url_get_required_params(url_format)`: one formatter per distinct
placeholder name, keyed by the `name` group of each `findall` token, later
tokens overwriting earlier ones of the same name.  `typeFinderMatch` always
succeeds on a `findall` token (lemma `typeFinderMatch_token_isSome` below);
in the impossible failure case the Python code would raise `AttributeError`
on `param.group("name")`, and this embedding skips the token. -/
def from_url_get_required_params (url_format : String) :
    List (String × UrlParamFormatter) :=
  (findallTokens url_format).foldl
    (fun acc tok =>
      match typeFinderMatch (String.mk tok) with
      | some (ty, nm) => dictInsert acc nm (mapType ty)
      | none => acc)
    []

/-- `from_url_get_required_params_names(url_format)`: the `name` group of
every `findall` token, in template order, duplicates included.  The
impossible non-match case is skipped as above. -/
def from_url_get_required_params_names (url_format : String) : List String :=
  (findallTokens url_format).filterMap fun tok =>
    (typeFinderMatch (String.mk tok)).map fun m => m.2

/-- The result of a chain of `is_convertable` checks inside `all(...)`:
`SimpleRoute.validate_url` looks each extracted name up in
`self.__reqired_url_params`; a missing key raises `KeyError` (modelled as
`none`), which — unlike `UrlFormatError` — is not caught.  The generator is
evaluated lazily, so a `False` check stops the scan before a later missing
key could raise. -/
def allConvertible (fs : List (String × UrlParamFormatter)) :
    List (String × String) → Option Bool
  | [] => some true
  | (k, v) :: rest =>
      match fs.lookup k with
      | none => none
      | some f => if f.is_convertable v then allConvertible fs rest else some false

/-- `SimpleRoute.validate_url(url)` for a route whose template is `tmpl`:
`parse_url` inside `try`, catching `UrlFormatError` as `False`; then every
extracted raw value must be convertible.  `none` models an uncaught
exception.  (`SimpleRoute.__init__` derives `__reqired_url_params`
deterministically from the template, so it is recomputed here.) -/
def simpleValidate (tmpl url : String) : Option Bool :=
  match parse_url tmpl url with
  | .error _ => some false
  | .ok pairs => allConvertible (from_url_get_required_params tmpl) pairs

/-- The dict comprehension of `SimpleRoute.parse_url`: convert every
extracted raw value through its formatter.  A missing formatter (`KeyError`)
or failing conversion (`ValueError`) raises, modelled as `none`; the keys of
`pairs` are already unique, so consing preserves dict semantics. -/
def convertAll (fs : List (String × UrlParamFormatter)) :
    List (String × String) → Option (List (String × PyValue))
  | [] => some []
  | (k, v) :: rest =>
      match fs.lookup k with
      | none => none
      | some f =>
          match f.convert v with
          | none => none
          | some pv => (convertAll fs rest).map fun d => (k, pv) :: d

/-- `SimpleRoute.parse_url(url)`: the handler together with the typed
parameters.  `parse_url` failures (`UrlFormatError`) are NOT caught here and
propagate, as do conversion failures; both are modelled as `none`. -/
def simpleParse (tmpl : String) (handler : Nat) (url : String) :
    Option (Nat × List (String × PyValue)) :=
  match parse_url tmpl url with
  | .error _ => none
  | .ok pairs =>
      (convertAll (from_url_get_required_params tmpl) pairs).map
        fun d => (handler, d)

/-- Modelled from the Python stdlib `urllib.parse.urljoin`, in the only
configuration the source uses: a path-only base (no scheme, netloc, query or
fragment) joined with a plain relative path reference (the pre-rendered
default-value suffix, or the empty string).  An empty reference returns the
base; otherwise the reference replaces everything after the base's last
slash, which — the base being `url + "/"` — appends the suffix. -/
def pyUrljoin (base rel : String) : String :=
  if rel = "" then base
  else String.mk ((base.data.reverse.dropWhile fun c => c ≠ '/').reverse) ++ rel

/-- `NestedRoute.__init__`'s pre-rendered suffix: the default values of the
mapped route's placeholder names that appear in `default_url_params`, in the
mapped template's placeholder order, joined with `/`.  Values are strings
here, so `str(...)` is the identity. -/
def nestedSuffix (mappedUrl : String) (defaults : List (String × String)) :
    String :=
  "/".intercalate
    ((from_url_get_required_params_names mappedUrl).filterMap
      fun n => defaults.lookup n)

/-- The three concrete `Route` classes.  A `NestedRoute` stores a non-owning
reference to its mapped `SimpleRoute`; routes are immutable after
construction, so the reference is snapshotted as the mapped route's template
and handler, together with the suffix pre-rendered by `NestedRoute.__init__`.
A `DefaultRoute` is a `SimpleRoute` with an overridden `parse_url`; `Router`
always constructs it with the empty URL and no accepted methods. -/
inductive Route
  | simple (url : String) (handler : Nat) (methods : List HttpMethod)
  | nested (url : String) (mappedUrl : String) (mappedHandler : Nat)
      (methods : List HttpMethod) (suffix : String)
  | defaultRoute (handler : Nat)
deriving DecidableEq, BEq

/-- `Route.mapped_url`. -/
def Route.mapped_url : Route → String
  | .simple url _ _ => url
  | .nested url _ _ _ _ => url
  | .defaultRoute _ => ""

/-- `Route.accepted_methods` (a Python list; a `DefaultRoute` is constructed
with the empty list). -/
def Route.accepted_methods : Route → List HttpMethod
  | .simple _ _ ms => ms
  | .nested _ _ _ ms _ => ms
  | .defaultRoute _ => []

/-- `Route.validate_method(method)`: membership in `accepted_methods`. -/
def Route.validate_method (r : Route) (m : HttpMethod) : Bool :=
  r.accepted_methods.contains m

/-- `Route.__eq__`: mapped URL and accepted-methods are compared; the latter
is a Python LIST comparison, so order and multiplicity matter. -/
def Route.eq (a b : Route) : Bool :=
  a.mapped_url = b.mapped_url ∧ a.accepted_methods = b.accepted_methods

/-- `validate_url` of each route class.  `DefaultRoute` inherits
`SimpleRoute.validate_url` with its empty template; `NestedRoute` delegates
to the mapped route on `urljoin(url + "/", suffix)`. -/
def Route.validate_url : Route → String → Option Bool
  | .simple tmpl _ _, url => simpleValidate tmpl url
  | .nested _ mUrl _ _ sfx, url => simpleValidate mUrl (pyUrljoin (url ++ "/") sfx)
  | .defaultRoute _, url => simpleValidate "" url

/-- `parse_url` of each route class.  `DefaultRoute.parse_url` returns its
handler with `None` instead of a parameter dict and never raises;
`NestedRoute` delegates to the mapped route on `urljoin(url + "/", suffix)`. -/
def Route.parse_url : Route → String → Option (Nat × Option (List (String × PyValue)))
  | .simple tmpl h _, url => (simpleParse tmpl h url).map fun x => (x.1, some x.2)
  | .nested _ mUrl mH _ sfx, url =>
      (simpleParse mUrl mH (pyUrljoin (url ++ "/") sfx)).map fun x => (x.1, some x.2)
  | .defaultRoute h, _ => some (h, none)

/-!
`RouteSet` and `Router`.  In the source,

  `class RouteSet:`
  `    __all_routes: list[Route] = []`
  `    __default_route: DefaultRoute = None`

declares `__all_routes` as a CLASS attribute holding one mutable list;
`RouteSet.__init__` assigns only `self.__default_route`, and `add_route`
calls `self.__all_routes.append(...)`, which mutates the class-level list.
Every `RouteSet` instance in the process therefore shares one route list.
The embedding makes that explicit: the shared class-level list is threaded
as a value, and each instance owns only its default route's handler.
`Router.__init__` builds `RouteSet(DefaultRoute("", default_handler))`,
which does not touch the shared list.
-/

/-- `RouteSet.add_route(new_route)`: scan the (shared) route list for an
`==`-equal route; reject with `False` if found, else append and return
`True`. -/
def RouteSet.add_route (routes : List Route) (new_route : Route) :
    List Route × Bool :=
  if routes.any fun route => Route.eq route new_route then (routes, false)
  else (routes ++ [new_route], true)

/-- `RouteSet.get_route(url, method)`: the first route of the (shared) list
validating both the method and the url, else this instance's default route.
The scan is lazy, so an exception (`none`) raised by a `validate_url` before
a match is found propagates. -/
def RouteSet.get_route : List Route → Route → String → HttpMethod → Option Route
  | [], default_route, _, _ => some default_route
  | r :: rest, default_route, url, m =>
      if r.validate_method m then
        match r.validate_url url with
        | none => none
        | some true => some r
        | some false => RouteSet.get_route rest default_route url m
      else RouteSet.get_route rest default_route url m

/-- `Router.get_handler(url, method)`: resolve through
`RouteSet.get_route`, then `parse_url` the matched route on the url.  The
instance's default route is `DefaultRoute("", default_handler)`. -/
def Router.get_handler (routes : List Route) (default_handler : Nat)
    (url : String) (m : HttpMethod) :
    Option (Nat × Option (List (String × PyValue))) :=
  match RouteSet.get_route routes (Route.defaultRoute default_handler) url m with
  | none => none
  | some r => r.parse_url url

/-- The `handler: Callable | Route` argument of `Router.add_route`: a
previously constructed `SimpleRoute` (snapshotted as template, handler and
accepted methods), a plain callable, or anything else (the unsupported
case). -/
inductive HandlerArg
  | callable (h : Nat)
  | simpleRoute (url : String) (handler : Nat) (methods : List HttpMethod)
  | other
deriving DecidableEq

/-- `Router.add_route(url, handler, accepted_methods, default_params)`: a
`SimpleRoute` argument requires non-empty `default_params` (else
`ValueError`) and is wrapped in a `NestedRoute`; a callable is wrapped in a
fresh `SimpleRoute`; anything else raises.  The new route is offered to
`RouteSet.add_route` — whose boolean result is discarded — and returned. -/
def Router.add_route (routes : List Route) (url : String) (handler : HandlerArg)
    (accepted_methods : List HttpMethod)
    (default_params : List (String × String)) :
    Except String (List Route × Route) :=
  match handler with
  | .simpleRoute mUrl mH _ =>
      if default_params.isEmpty then
        .error "for NestedRoute default_params are required"
      else
        let new_route :=
          Route.nested url mUrl mH accepted_methods (nestedSuffix mUrl default_params)
        .ok ((RouteSet.add_route routes new_route).1, new_route)
  | .callable h =>
      let new_route := Route.simple url h accepted_methods
      .ok ((RouteSet.add_route routes new_route).1, new_route)
  | .other =>
      .error "routing not implemented for handler of this type"

/-- `Router.__init__(default_handler)`: wraps the class-level route list
(unchanged) and a fresh `DefaultRoute("", default_handler)`. -/
def Router.init (classRoutes : List Route) (default_handler : Nat) :
    List Route × Nat :=
  (classRoutes, default_handler)

/-!
Specification-side vocabulary.  These definitions follow the wording of the
spec (template shape, placeholder segments, extracted raw values), to be
related to the code-side functions above by the theorems below.
-/

/-- A template segment counts as a placeholder exactly when
`_URL_PARAMS_TYPE_FINDER` matches it. -/
def isPlaceholderSeg (f : String) : Bool := (typeFinderMatch f).isSome

/-- One aligned segment pair is fine when the segments are equal or the
template segment is a placeholder. -/
def segPairOk (f r : String) : Bool := f = r || isPlaceholderSeg f

/-- The spec's template-shape condition: equal segment counts and aligned
literals. -/
def shapeOk (t p : String) : Bool :=
  (splitSegs t).length = (splitSegs p).length &&
    ((splitSegs t).zip (splitSegs p)).all fun fr => segPairOk fr.1 fr.2

/-- The raw extraction the spec describes: for every aligned pair with
differing segments whose template segment is a placeholder, the placeholder
name with the path segment, in order (duplicates kept). -/
def extractedPairsL (fl pl : List String) : List (String × String) :=
  (fl.zip pl).filterMap fun fr =>
    if fr.1 = fr.2 then none
    else (typeFinderMatch fr.1).map fun m => (m.2, fr.2)

/-- Raw extraction on whole strings. -/
def extractedPairs (t p : String) : List (String × String) :=
  extractedPairsL (splitSegs t) (splitSegs p)

/-- The placeholder names of a template's segments, in order, duplicates
kept.  (Unlike `from_url_get_required_params_names` this looks at whole
segments, the way `parse_url` does, rather than at `findall` tokens.) -/
def segMatchNames (t : String) : List String :=
  (splitSegs t).filterMap fun f => (typeFinderMatch f).map fun m => m.2

/-- Convertibility of one extracted (name, raw value) pair by the formatter
bound to the name, per the spec's `validate_url` clause. -/
def convOk (t : String) (kv : String × String) : Bool :=
  match (from_url_get_required_params t).lookup kv.1 with
  | some f => f.is_convertable kv.2
  | none => false

/-- Every extracted raw value is convertible by its formatter. -/
def allConvOk (t p : String) : Bool := (extractedPairs t p).all (convOk t)

/-- Every placeholder name that `parse_url` can extract from a segment of
`t` owns a formatter in `from_url_get_required_params t`.  This holds for
every template in the vocabulary the spec defines (segments that are exactly
`<name>` or `<type:name>`, other segments literal) and fails only for
templates like `"/<a>x<b>"`, where the greedy segment-level match invents a
name no `findall` token produces. -/
def namesCovered (t : String) : Bool :=
  (splitSegs t).all fun f =>
    match typeFinderMatch f with
    | some m => ((from_url_get_required_params t).lookup m.2).isSome
    | none => true

/-- Success/failure of an `Except` computation as a boolean. -/
def isOkE {ε α : Type} : Except ε α → Bool
  | .ok _ => true
  | .error _ => false

/-!
Helper lemmas.
-/

theorem dictInsert_append {α : Type} (d : List (String × α)) (k : String)
    (v : α) (h : ∀ p ∈ d, p.1 ≠ k) : dictInsert d k v = d ++ [(k, v)] := by
  unfold dictInsert
  rw [if_neg]
  simp only [List.any_eq_true, decide_eq_true_eq, not_exists, not_and]
  intro p hp
  exact h p hp

theorem parseSegs_isOk (fl : List String) :
    ∀ (pl : List String) (acc : List (String × String)),
      isOkE (parseSegs fl pl acc) =
        (fl.zip pl).all fun fr => segPairOk fr.1 fr.2 := by
  induction fl with
  | nil => intro pl acc; cases pl <;> simp [parseSegs, isOkE]
  | cons f fs ih =>
      intro pl acc
      cases pl with
      | nil => simp [parseSegs, isOkE]
      | cons r rs =>
          by_cases hfr : f = r
          · simp [parseSegs, hfr, ih, segPairOk]
          · cases hm : typeFinderMatch f with
            | none =>
                simp [parseSegs, hfr, hm, isOkE, segPairOk, isPlaceholderSeg]
            | some m =>
                cases m with
                | mk ty nm =>
                    simp [parseSegs, hfr, hm, ih, segPairOk, isPlaceholderSeg]

theorem parseSegs_result (fl : List String) :
    ∀ (pl : List String) (acc d : List (String × String)),
      parseSegs fl pl acc = .ok d →
      ((extractedPairsL fl pl).map Prod.fst).Nodup →
      (∀ k ∈ (extractedPairsL fl pl).map Prod.fst, ∀ p ∈ acc, p.1 ≠ k) →
      d = acc ++ extractedPairsL fl pl := by
  induction fl with
  | nil =>
      intro pl acc d h _ _
      cases pl <;> · simp [parseSegs] at h; simp [extractedPairsL, h]
  | cons f fs ih =>
      intro pl acc d h hnd hdisj
      cases pl with
      | nil => simp [parseSegs] at h; simp [extractedPairsL, h]
      | cons r rs =>
          by_cases hfr : f = r
          · rw [parseSegs, if_pos hfr] at h
            have hext :
                extractedPairsL (f :: fs) (r :: rs) = extractedPairsL fs rs := by
              simp [extractedPairsL, hfr]
            rw [hext] at hnd hdisj ⊢
            exact ih rs acc d h hnd hdisj
          · cases hm : typeFinderMatch f with
            | none => rw [parseSegs, if_neg hfr, hm] at h; cases h
            | some m =>
                cases m with
                | mk ty nm =>
                    rw [parseSegs, if_neg hfr, hm] at h
                    have h2 : parseSegs fs rs (dictInsert acc nm r) = .ok d := h
                    have hext :
                        extractedPairsL (f :: fs) (r :: rs) =
                          (nm, r) :: extractedPairsL fs rs := by
                      simp [extractedPairsL, hfr, hm]
                    rw [hext] at hnd hdisj ⊢
                    simp only [List.map_cons, List.nodup_cons] at hnd
                    have hfresh : ∀ p ∈ acc, p.1 ≠ nm := by
                      intro p hp
                      exact hdisj nm (by simp) p hp
                    rw [dictInsert_append acc nm r hfresh] at h2
                    have hdisj' :
                        ∀ k ∈ (extractedPairsL fs rs).map Prod.fst,
                          ∀ p ∈ acc ++ [(nm, r)], p.1 ≠ k := by
                      intro k hk p hp
                      rcases List.mem_append.mp hp with hp | hp
                      · exact hdisj k (by simp [hk]) p hp
                      · simp only [List.mem_singleton] at hp
                        subst hp
                        show nm ≠ k
                        intro hkeq
                        exact hnd.1 (by rw [hkeq]; exact hk)
                    have := ih rs (acc ++ [(nm, r)]) d h2 hnd.2 hdisj'
                    simpa [List.append_assoc] using this

theorem extractedPairsL_fst_sublist (fl : List String) :
    ∀ pl : List String,
      ((extractedPairsL fl pl).map Prod.fst).Sublist
        (fl.filterMap fun f => (typeFinderMatch f).map fun m => m.2) := by
  induction fl with
  | nil => intro pl; simp [extractedPairsL]
  | cons f fs ih =>
      intro pl
      cases pl with
      | nil =>
          have h0 : extractedPairsL (f :: fs) [] = [] := by
            simp [extractedPairsL]
          rw [h0]
          exact List.nil_sublist _
      | cons r rs =>
          cases hm : typeFinderMatch f with
          | none =>
              have h1 : extractedPairsL (f :: fs) (r :: rs) =
                  extractedPairsL fs rs := by
                by_cases hfr : f = r <;> simp [extractedPairsL, hfr, hm]
              have h2 :
                  ((f :: fs).filterMap fun g =>
                      (typeFinderMatch g).map fun m => m.2) =
                    fs.filterMap fun g => (typeFinderMatch g).map fun m => m.2 := by
                simp [hm]
              rw [h1, h2]
              exact ih rs
          | some m =>
              have h2 :
                  ((f :: fs).filterMap fun g =>
                      (typeFinderMatch g).map fun m => m.2) =
                    m.2 :: fs.filterMap fun g => (typeFinderMatch g).map fun m => m.2 := by
                simp [hm]
              rw [h2]
              by_cases hfr : f = r
              · have h1 : extractedPairsL (f :: fs) (r :: rs) =
                    extractedPairsL fs rs := by
                  simp [extractedPairsL, hfr]
                rw [h1]
                exact (ih rs).trans (List.sublist_cons_self _ _)
              · have h1 : extractedPairsL (f :: fs) (r :: rs) =
                    (m.2, r) :: extractedPairsL fs rs := by
                  simp [extractedPairsL, hfr, hm]
                rw [h1, List.map_cons]
                exact (ih rs).cons₂ m.2

theorem lookup_eq_of_mem_nodup {α : Type} (d : List (String × α)) (k : String)
    (v : α) (hnd : (d.map Prod.fst).Nodup) (hmem : (k, v) ∈ d) :
    d.lookup k = some v := by
  induction d with
  | nil => cases hmem
  | cons p rest ih =>
      cases p with
      | mk pk pv =>
          simp only [List.map_cons, List.nodup_cons] at hnd
          rcases List.mem_cons.mp hmem with hmeq | hmem2
          · cases hmeq
            simp [List.lookup]
          · have hne : pk ≠ k := by
              intro hkeq
              refine hnd.1 ?_
              rw [hkeq]
              exact List.mem_map.mpr ⟨(k, v), hmem2, rfl⟩
            have hbeq : (k == pk) = false :=
              beq_eq_false_iff_ne.mpr fun h => hne h.symm
            simp only [List.lookup, hbeq]
            exact ih hnd.2 hmem2

theorem mem_extractedPairsL (fl pl : List String) (f r : String)
    (hz : (f, r) ∈ fl.zip pl) (hne : f ≠ r) (ty : Option String) (nm : String)
    (hm : typeFinderMatch f = some (ty, nm)) :
    (nm, r) ∈ extractedPairsL fl pl := by
  unfold extractedPairsL
  refine List.mem_filterMap.mpr ⟨(f, r), hz, ?_⟩
  simp [hne, hm]

theorem allConvertible_covered (fs : List (String × UrlParamFormatter)) :
    ∀ d : List (String × String),
      (∀ kv ∈ d, (fs.lookup kv.1).isSome) →
      allConvertible fs d =
        some (d.all fun kv =>
          match fs.lookup kv.1 with
          | some f => f.is_convertable kv.2
          | none => false) := by
  intro d
  induction d with
  | nil => intro _; simp [allConvertible]
  | cons kv rest ih =>
      intro hcov
      cases kv with
      | mk k v =>
          have hk : (fs.lookup k).isSome := hcov (k, v) (by simp)
          cases hfk : fs.lookup k with
          | none => rw [hfk] at hk; cases hk
          | some f =>
              have hstep : allConvertible fs ((k, v) :: rest) =
                  if f.is_convertable v then allConvertible fs rest
                  else some false := by
                rw [allConvertible, hfk]
              rw [hstep]
              by_cases hc : f.is_convertable v
              · rw [if_pos hc, ih fun kv h => hcov kv (List.mem_cons_of_mem _ h)]
                simp [hfk, hc]
              · rw [if_neg hc]
                simp [hfk, hc]

theorem extracted_key_covered (t p : String) (hcov : namesCovered t = true)
    (kv : String × String) (hmem : kv ∈ extractedPairs t p) :
    ((from_url_get_required_params t).lookup kv.1).isSome := by
  unfold extractedPairs extractedPairsL at hmem
  rcases List.mem_filterMap.mp hmem with ⟨fr, hfr, hval⟩
  by_cases heq : fr.1 = fr.2
  · rw [if_pos heq] at hval; cases hval
  · rw [if_neg heq] at hval
    cases hm : typeFinderMatch fr.1 with
    | none => rw [hm] at hval; cases hval
    | some m =>
        rw [hm] at hval
        have hval2 : (m.2, fr.2) = kv := by simpa using hval
        have hf1 : fr.1 ∈ splitSegs t := (List.of_mem_zip hfr).1
        unfold namesCovered at hcov
        have hall := (List.all_eq_true.mp hcov) fr.1 hf1
        rw [hm] at hall
        rw [← hval2]
        simpa using hall

theorem parse_url_isOk (t p : String) : isOkE (parse_url t p) = shapeOk t p := by
  unfold parse_url shapeOk
  by_cases hlen : (splitSegs t).length = (splitSegs p).length
  · rw [if_neg (by simp [hlen]), parseSegs_isOk]
    simp [hlen]
  · rw [if_pos (by simpa using hlen)]
    simp [isOkE, hlen]

theorem parse_url_result (t p : String) (d : List (String × String))
    (hok : parse_url t p = .ok d) (hnd : (segMatchNames t).Nodup) :
    d = extractedPairs t p := by
  unfold parse_url at hok
  by_cases hlen : (splitSegs t).length = (splitSegs p).length
  · rw [if_neg (by simp [hlen])] at hok
    have hkeys : ((extractedPairs t p).map Prod.fst).Nodup :=
      hnd.sublist (extractedPairsL_fst_sublist _ _)
    exact parseSegs_result _ _ [] d hok hkeys (by simp)
  · rw [if_pos (by simpa using hlen)] at hok
    cases hok

/-- Main characterisation of `SimpleRoute.validate_url` for templates whose
extractable placeholder names are distinct and all own a formatter:
`validate_url` raises nothing and returns exactly "the shape matches and
every extracted raw value is convertible by the formatter bound to its
name". -/
theorem validateSpec (t p : String) (hcov : namesCovered t = true)
    (hnd : (segMatchNames t).Nodup) :
    simpleValidate t p = some (shapeOk t p && allConvOk t p) := by
  unfold simpleValidate
  cases hok : parse_url t p with
  | error e =>
      have hsh : shapeOk t p = false := by
        rw [← parse_url_isOk, hok]; rfl
      simp [hsh]
  | ok d =>
      have hsh : shapeOk t p = true := by
        rw [← parse_url_isOk, hok]; rfl
      have hd : d = extractedPairs t p := parse_url_result t p d hok hnd
      rw [hd]
      show allConvertible (from_url_get_required_params t) (extractedPairs t p) =
        some (shapeOk t p && allConvOk t p)
      rw [allConvertible_covered _ _ fun kv hk => extracted_key_covered t p hcov kv hk,
        hsh]
      rfl

/-- First-match-wins, as a `find?`: `RouteSet.get_route` returns the first
route of the shared list validating both method and url, else the default
route, provided no scanned route's `validate_url` raises. -/
theorem getRouteFind (routes : List Route) (dflt : Route) (url : String)
    (m : HttpMethod) (hsafe : ∀ r ∈ routes, r.validate_url url ≠ none) :
    RouteSet.get_route routes dflt url m =
      some ((routes.find? fun r =>
        r.validate_method m && (r.validate_url url == some true)).getD dflt) := by
  induction routes with
  | nil => simp [RouteSet.get_route, List.find?]
  | cons r rest ih =>
      have hr := hsafe r (by simp)
      have hrest : ∀ x ∈ rest, x.validate_url url ≠ none := fun x hx =>
        hsafe x (List.mem_cons_of_mem _ hx)
      by_cases hvm : r.validate_method m
      · cases hvu : r.validate_url url with
        | none => exact absurd hvu hr
        | some b =>
            cases b with
            | true =>
                have hfind : List.find? (fun x => x.validate_method m &&
                    (x.validate_url url == some true)) (r :: rest) = some r :=
                  List.find?_cons_of_pos _ (by simp [hvm, hvu])
                rw [RouteSet.get_route, if_pos hvm, hvu]
                show some r = _
                rw [hfind]
                rfl
            | false =>
                have hfind : List.find? (fun x => x.validate_method m &&
                    (x.validate_url url == some true)) (r :: rest) =
                    List.find? (fun x => x.validate_method m &&
                      (x.validate_url url == some true)) rest :=
                  List.find?_cons_of_neg _ (by simp [hvm, hvu])
                rw [RouteSet.get_route, if_pos hvm, hvu]
                show RouteSet.get_route rest dflt url m = _
                rw [hfind]
                exact ih hrest
      · have hfind : List.find? (fun x => x.validate_method m &&
            (x.validate_url url == some true)) (r :: rest) =
            List.find? (fun x => x.validate_method m &&
              (x.validate_url url == some true)) rest :=
          List.find?_cons_of_neg _ (by simp [hvm])
        rw [RouteSet.get_route, if_neg hvm, hfind]
        exact ih hrest

/-- A route whose `validate_url` returns `False` (or whose method check
fails) is skipped by `RouteSet.get_route`. -/
theorem getRoute_skip (r : Route) (rest : List Route) (dflt : Route)
    (url : String) (m : HttpMethod)
    (h : r.validate_method m = false ∨ r.validate_url url = some false) :
    RouteSet.get_route (r :: rest) dflt url m =
      RouteSet.get_route rest dflt url m := by
  rcases h with h | h
  · rw [RouteSet.get_route, if_neg (by simp [h])]
  · by_cases hvm : r.validate_method m
    · rw [RouteSet.get_route, if_pos hvm, h]
    · rw [RouteSet.get_route, if_neg hvm]

theorem get?_append_len {α : Type} (l : List α) (a : α) (l2 : List α) :
    (l ++ a :: l2).get? l.length = some a := by
  induction l with
  | nil => rfl
  | cons x xs ih => simpa using ih

theorem take_append_len {α : Type} (l l2 : List α) :
    (l ++ l2).take l.length = l := by
  induction l with
  | nil => rfl
  | cons x xs ih => simp [ih]

theorem findQ_isSome (l : List Char) (v : Nat) (hv1 : 1 ≤ v)
    (hnl : ((l.take v).all fun c => c ≠ '\n') = true)
    (hgt : l.get? v = some '>') :
    ∀ fuel, v ≤ fuel → (findQ l fuel).isSome := by
  intro fuel
  induction fuel with
  | zero => intro h; exact absurd (Nat.le_trans hv1 h) (by simp)
  | succ n ih =>
      intro hle
      rw [findQ]
      by_cases hc : ((l.take (n + 1)).all fun c => c ≠ '\n') ∧
          l.get? (n + 1) = some '>'
      · rw [if_pos hc]; rfl
      · rw [if_neg hc]
        apply ih
        rcases Nat.lt_or_ge v (n + 1) with h | h
        · exact Nat.lt_succ_iff.mp h
        · exfalso
          have hv : v = n + 1 := Nat.le_antisymm hle h
          subst hv
          exact hc ⟨hnl, hgt⟩

theorem findallAux_shape (l : List Char) :
    ∀ st : Option (List Char),
      (∀ cs, st = some cs → ∀ c ∈ cs, c ≠ '\n') →
      ∀ tok ∈ findallAux st l,
        ∃ inner, tok = '<' :: (inner ++ ['>']) ∧ inner ≠ [] ∧
          ∀ c ∈ inner, c ≠ '\n' := by
  induction l with
  | nil => intro st _ tok htok; cases st <;> simp [findallAux] at htok
  | cons c rest ih =>
      intro st hst tok htok
      cases st with
      | none =>
          rw [findallAux] at htok
          by_cases hc : c = '<'
          · rw [if_pos hc] at htok
            exact ih (some []) (by intro cs hcs x hx; cases hcs; cases hx) tok htok
          · rw [if_neg hc] at htok
            exact ih none (by intro cs hcs; cases hcs) tok htok
      | some cs =>
          rw [findallAux] at htok
          by_cases hnl : c = '\n'
          · rw [if_pos hnl] at htok
            exact ih none (by intro cs' hcs; cases hcs) tok htok
          · rw [if_neg hnl] at htok
            by_cases hgt : c = '>' ∧ cs ≠ []
            · rw [if_pos hgt] at htok
              rcases List.mem_cons.mp htok with h | h
              · refine ⟨cs.reverse, h, by simpa using hgt.2, ?_⟩
                intro x hx
                exact hst cs rfl x (List.mem_reverse.mp hx)
              · exact ih none (by intro cs' hcs; cases hcs) tok h
            · rw [if_neg hgt] at htok
              refine ih (some (c :: cs)) ?_ tok htok
              intro cs' hcs x hx
              cases hcs
              rcases List.mem_cons.mp hx with h | h
              · subst h; exact hnl
              · exact hst cs rfl x h

theorem typeFinderMatch_cons_lt (rest : List Char) :
    typeFinderMatch (String.mk ('<' :: rest)) =
      match findP rest rest.length with
      | some pr => some (some (String.mk pr.1), String.mk pr.2)
      | none => (nameMatch rest).map fun nm => ((none : Option String), String.mk nm) := by
  simp only [typeFinderMatch]
  cases findP rest rest.length with
  | some pr => cases pr; rfl
  | none => rfl

/-- `_URL_PARAMS_TYPE_FINDER.match` succeeds on every token produced by
`_URL_PARAMS_FINDER.findall`: the token is `<` + nonempty newline-free
content + `>`, and the group-absent branch of the pattern always matches it.
This discharges the unreachable `none` branches in
`from_url_get_required_params` and `from_url_get_required_params_names`
(where CPython would raise `AttributeError` on `None.group`). -/
theorem typeFinderMatch_token_isSome (s : String) (tok : List Char)
    (htok : tok ∈ findallTokens s) :
    (typeFinderMatch (String.mk tok)).isSome := by
  obtain ⟨inner, htk, hne, hnl⟩ :=
    findallAux_shape s.data none (by intro cs h; cases h) tok htok
  subst htk
  rw [typeFinderMatch_cons_lt]
  cases hp : findP (inner ++ ['>']) (inner ++ ['>']).length with
  | some pr => simp
  | none =>
      have hq : (findQ (inner ++ ['>']) (inner ++ ['>']).length).isSome := by
        apply findQ_isSome (inner ++ ['>']) inner.length
        · exact Nat.one_le_iff_ne_zero.mpr (by simpa using hne)
        · rw [take_append_len]
          exact List.all_eq_true.mpr fun x hx => by simpa using hnl x hx
        · exact get?_append_len inner '>' []
        · simp
      simp only [nameMatch]
      cases hfq : findQ (inner ++ ['>']) (inner ++ ['>']).length with
      | none => rw [hfq] at hq; cases hq
      | some q => simp

theorem segPairOk_iff (f r : String) :
    segPairOk f r = true ↔ (isPlaceholderSeg f = false → f = r) := by
  unfold segPairOk
  cases hp : isPlaceholderSeg f <;> simp [hp]

theorem shapeOk_of_len (T P : String)
    (hlen : (splitSegs T).length = (splitSegs P).length) :
    shapeOk T P = ((splitSegs T).zip (splitSegs P)).all fun fr =>
      segPairOk fr.1 fr.2 := by
  unfold shapeOk
  simp [hlen]

/-- Claim C1, counterexample.  The claim says `parse_url` binds each
placeholder's name to the aligned path segment; but a pair of EQUAL segments
is skipped before the placeholder test, so for template `"/<x>"` and path
`"/<x>"` — whose segment 1 is a placeholder named `x` — the match succeeds
with an empty mapping and `x` is not bound at all. -/
theorem parse_url_binding_cex :
    splitSegs "/<x>" = ["", "<x>"] ∧
    typeFinderMatch "<x>" = some (none, "x") ∧
    parse_url "/<x>" "/<x>" = .ok [] ∧
    ([] : List (String × String)).lookup "x" = none := by
  decide

/-- Claim C1 (amended): for templates and paths with equally many segments,
`parse_url` succeeds iff every pair whose template segment is no placeholder
is equal; and — provided the template's placeholder names are pairwise
distinct and no placeholder segment is character-identical to its aligned
path segment — the returned mapping binds each placeholder's name to the
path segment aligned with it. -/
theorem parse_url_match_spec (T P : String)
    (hlen : (splitSegs T).length = (splitSegs P).length) :
    (isOkE (parse_url T P) = true ↔
      ∀ fr ∈ (splitSegs T).zip (splitSegs P),
        isPlaceholderSeg fr.1 = false → fr.1 = fr.2) ∧
    ((segMatchNames T).Nodup →
      (∀ fr ∈ (splitSegs T).zip (splitSegs P),
        isPlaceholderSeg fr.1 = true → fr.1 ≠ fr.2) →
      ∀ d, parse_url T P = .ok d →
        ∀ fr ∈ (splitSegs T).zip (splitSegs P), ∀ ty nm,
          typeFinderMatch fr.1 = some (ty, nm) →
          d.lookup nm = some fr.2) := by
  constructor
  · rw [parse_url_isOk, shapeOk_of_len T P hlen, List.all_eq_true]
    constructor
    · intro h fr hfr
      exact (segPairOk_iff fr.1 fr.2).mp (h fr hfr)
    · intro h fr hfr
      exact (segPairOk_iff fr.1 fr.2).mpr (h fr hfr)
  · intro hnd hdiff d hok fr hfr ty nm hm
    have hd : d = extractedPairs T P := parse_url_result T P d hok hnd
    subst hd
    apply lookup_eq_of_mem_nodup
    · exact hnd.sublist (extractedPairsL_fst_sublist _ _)
    · rcases fr with ⟨f, r⟩
      refine mem_extractedPairsL _ _ f r hfr ?_ ty nm hm
      exact hdiff (f, r) hfr (by simp [isPlaceholderSeg, hm])

/-- Witness for C1's theorem at template `"/a/<x>"` and path `"/a/v"`. -/
theorem parse_url_match_spec_witness :
    ∃ d, parse_url "/a/<x>" "/a/v" = Except.ok d ∧ d.lookup "x" = some "v" := by
  have h := (parse_url_match_spec "/a/<x>" "/a/v" (by decide)).2
    (by decide) (by decide) [("x", "v")] (by decide)
    ("<x>", "v") (by decide) none "x" (by decide)
  exact ⟨[("x", "v")], by decide, h⟩

/-- Claim C2, counterexample.  `NestedRoute` delegates matching to its
mapped route on `urljoin(incoming_path + "/", suffix)`; with the nested
route registered at `"/short/<x>"` over a mapped template `"/a/<x>/<y>"`,
the delegated path `"/short/5/default"` fails the mapped template's literal
segment `"a"`, so `"/short/5"` falls through to the default route (handler
0, absent params) instead of resolving to the mapped handler 1 that
`"/a/5/default"` resolves to. -/
theorem nested_route_cross_template_cex :
    Router.add_route [] "/a/<x>/<y>" (.callable 1) [.GET] [] =
      .ok ([Route.simple "/a/<x>/<y>" 1 [.GET]],
        Route.simple "/a/<x>/<y>" 1 [.GET]) ∧
    Router.add_route [Route.simple "/a/<x>/<y>" 1 [.GET]] "/short/<x>"
        (.simpleRoute "/a/<x>/<y>" 1 [.GET]) [.GET] [("y", "default")] =
      .ok ([Route.simple "/a/<x>/<y>" 1 [.GET],
            Route.nested "/short/<x>" "/a/<x>/<y>" 1 [.GET] "default"],
        Route.nested "/short/<x>" "/a/<x>/<y>" 1 [.GET] "default") ∧
    pyUrljoin ("/short/5" ++ "/") "default" = "/short/5/default" ∧
    Router.get_handler
      [Route.simple "/a/<x>/<y>" 1 [.GET],
       Route.nested "/short/<x>" "/a/<x>/<y>" 1 [.GET] "default"]
      0 "/short/5" .GET = some (0, none) ∧
    Router.get_handler
      [Route.simple "/a/<x>/<y>" 1 [.GET],
       Route.nested "/short/<x>" "/a/<x>/<y>" 1 [.GET] "default"]
      0 "/a/5/default" .GET =
      some (1, some [("x", .str "5"), ("y", .str "default")]) := by
  decide

/-- Claim C2 (amended): with the wrapping `NestedRoute` registered at
`"/a/<x>"` — a path that extends to the mapped template once the
pre-rendered default suffix is appended — `"/a/5"` resolves to the same
handler as `"/a/5/default"`, with exactly the typed parameters the mapped
route's own `parse_url` produces for the suffix-extended path. -/
theorem nested_route_compose :
    Router.add_route [Route.simple "/a/<x>/<y>" 1 [.GET]] "/a/<x>"
        (.simpleRoute "/a/<x>/<y>" 1 [.GET]) [.GET] [("y", "default")] =
      .ok ([Route.simple "/a/<x>/<y>" 1 [.GET],
            Route.nested "/a/<x>" "/a/<x>/<y>" 1 [.GET] "default"],
        Route.nested "/a/<x>" "/a/<x>/<y>" 1 [.GET] "default") ∧
    nestedSuffix "/a/<x>/<y>" [("y", "default")] = "default" ∧
    simpleParse "/a/<x>/<y>" 1
        (pyUrljoin ("/a/5" ++ "/") (nestedSuffix "/a/<x>/<y>" [("y", "default")])) =
      some (1, [("x", .str "5"), ("y", .str "default")]) ∧
    Router.get_handler
      [Route.simple "/a/<x>/<y>" 1 [.GET],
       Route.nested "/a/<x>" "/a/<x>/<y>" 1 [.GET] "default"]
      0 "/a/5" .GET =
      some (1, some [("x", .str "5"), ("y", .str "default")]) ∧
    Router.get_handler
      [Route.simple "/a/<x>/<y>" 1 [.GET],
       Route.nested "/a/<x>" "/a/<x>/<y>" 1 [.GET] "default"]
      0 "/a/5/default" .GET =
      some (1, some [("x", .str "5"), ("y", .str "default")]) := by
  decide

/-- Claim C3: the code contradicts the spec's ownership rule.
`RouteSet.__all_routes: list[Route] = []` is a mutable CLASS attribute that
`__init__` never rebinds, so every `RouteSet` — hence every `Router` — in
the process appends to and reads one shared list.  Evaluating the code on
two routers: router A (default handler 10) registers `"/r"`; a freshly
constructed router B (default handler 20) then already sees A's route —
`get_route`/`get_handler` on B return A's route and handler 7 instead of
B's default — and B's `RouteSet` is not empty. -/
theorem router_shared_routes_bug :
    Router.init [] 10 = ([], 10) ∧
    Router.add_route [] "/r" (.callable 7) [.GET] [] =
      .ok ([Route.simple "/r" 7 [.GET]], Route.simple "/r" 7 [.GET]) ∧
    Router.init [Route.simple "/r" 7 [.GET]] 20 =
      ([Route.simple "/r" 7 [.GET]], 20) ∧
    RouteSet.get_route [Route.simple "/r" 7 [.GET]] (Route.defaultRoute 20)
        "/r" .GET = some (Route.simple "/r" 7 [.GET]) ∧
    Router.get_handler [Route.simple "/r" 7 [.GET]] 20 "/r" .GET =
      some (7, some []) := by
  decide

/-- Claim C4, counterexample.  The claim says `validate_url` never raises;
but for the template `"/<a>x<b>"` the segment-level greedy match extracts the
name `"a>x<b"`, while the formatter table (built from the `findall` tokens
`<a>` and `<b>`) has only `"a"` and `"b"`, so the lookup inside
`validate_url` raises `KeyError` (modelled `none`) — which the
`except UrlFormatError` clause does not catch. -/
theorem validate_url_raises_cex :
    parse_url "/<a>x<b>" "/c" = .ok [("a>x<b", "c")] ∧
    from_url_get_required_params "/<a>x<b>" = [("a", .str), ("b", .str)] ∧
    simpleValidate "/<a>x<b>" "/c" = none := by
  decide

/-- Claim C4 (amended): for every `SimpleRoute` whose template's extractable
placeholder names are pairwise distinct and all own a formatter (true for
every template built from well-formed `<name>`/`<type:name>` placeholder
segments and bracket-free literals), and every path, `validate_url` raises
nothing and returns true iff the path matches the template shape and every
extracted raw value is convertible by the formatter bound to its name — any
`UrlFormatError` being converted to false. -/
theorem validate_url_spec (t p : String) (hcov : namesCovered t = true)
    (hnd : (segMatchNames t).Nodup) :
    simpleValidate t p = some (shapeOk t p && allConvOk t p) :=
  validateSpec t p hcov hnd

/-- Witness for C4's theorem at the route `"/items/<int:id>"`, on a matching
and a non-matching path. -/
theorem validate_url_spec_witness :
    simpleValidate "/items/<int:id>" "/items/42" =
      some (shapeOk "/items/<int:id>" "/items/42" &&
        allConvOk "/items/<int:id>" "/items/42") ∧
    simpleValidate "/items/<int:id>" "/items/abc" =
      some (shapeOk "/items/<int:id>" "/items/abc" &&
        allConvOk "/items/<int:id>" "/items/abc") :=
  ⟨validate_url_spec "/items/<int:id>" "/items/42" (by decide) (by decide),
   validate_url_spec "/items/<int:id>" "/items/abc" (by decide) (by decide)⟩

/-- Claim C5: registering `"/items/<int:id>"` with handler 5 for GET, then
looking `("/items/42", GET)` up, returns exactly handler 5 with
`{"id": 42}` as a typed integer value; and `_PARAM_TYPE_MAPPER` resolves
`"int"` to the integer converter, `"float"` to the float converter, and any
other or absent tag to the string converter. -/
theorem roundtrip_int_route :
    (Router.add_route [] "/items/<int:id>" (.callable 5) [.GET] [] =
      .ok ([Route.simple "/items/<int:id>" 5 [.GET]],
        Route.simple "/items/<int:id>" 5 [.GET])) ∧
    Router.get_handler [Route.simple "/items/<int:id>" 5 [.GET]] 0
        "/items/42" .GET = some (5, some [("id", PyValue.int 42)]) ∧
    mapType (some "int") = .int ∧
    mapType (some "float") = .float ∧
    mapType none = .str ∧
    (∀ s : String, s ≠ "int" → s ≠ "float" → mapType (some s) = .str) := by
  refine ⟨by decide, by decide, rfl, rfl, rfl, ?_⟩
  intro s h1 h2
  unfold mapType
  split
  · rename_i h
    injection h with h'
    exact absurd h' h1
  · rename_i h
    injection h with h'
    exact absurd h' h2
  · rfl

/-- Witness for C5's theorem: an unrecognised type tag resolves to the
string converter. -/
theorem roundtrip_int_route_witness :
    mapType (some "bool") = UrlParamFormatter.str :=
  roundtrip_int_route.2.2.2.2.2 "bool" (by decide) (by decide)

/-- Claim C6, counterexample.  The claim says `get_route` returns the first
route for which both checks hold and the default route when none does; but
when a scanned route's `validate_url` raises (template `"/<a>x<b>"`, see
C4), `get_route` propagates the exception (modelled `none`) instead of
returning any route. -/
theorem get_route_raises_cex :
    (Route.simple "/<a>x<b>" 1 [.GET]).validate_method .GET = true ∧
    (Route.simple "/<a>x<b>" 1 [.GET]).validate_url "/c" = none ∧
    RouteSet.get_route [Route.simple "/<a>x<b>" 1 [.GET]]
      (Route.defaultRoute 0) "/c" .GET = none := by
  decide

/-- Claim C6 (amended): provided no scanned route's `validate_url` raises on
the given path, `get_route` returns the first route in insertion order for
which `validate_method` and `validate_url` both hold, and the default route
when no registered route satisfies both — so of two routes that both
validate, the earlier-registered one is returned. -/
theorem get_route_first_match (routes : List Route) (dflt : Route)
    (url : String) (m : HttpMethod)
    (hsafe : ∀ r ∈ routes, r.validate_url url ≠ none) :
    RouteSet.get_route routes dflt url m =
      some ((routes.find? fun r =>
        r.validate_method m && (r.validate_url url == some true)).getD dflt) :=
  getRouteFind routes dflt url m hsafe

/-- Witness for C6's theorem: two overlapping GET routes for `"/a"`; the
earlier-registered one (handler 1) is found first, and on a miss the
default route is produced. -/
theorem get_route_first_match_witness :
    RouteSet.get_route [Route.simple "/a" 1 [.GET], Route.simple "/a" 2 [.GET]]
        (Route.defaultRoute 0) "/a" .GET =
      some ((([Route.simple "/a" 1 [.GET],
          Route.simple "/a" 2 [.GET]]).find? fun r =>
        r.validate_method .GET && (r.validate_url "/a" == some true)).getD
          (Route.defaultRoute 0)) ∧
    RouteSet.get_route [Route.simple "/a" 1 [.GET], Route.simple "/a" 2 [.GET]]
        (Route.defaultRoute 0) "/b" .GET =
      some ((([Route.simple "/a" 1 [.GET],
          Route.simple "/a" 2 [.GET]]).find? fun r =>
        r.validate_method .GET && (r.validate_url "/b" == some true)).getD
          (Route.defaultRoute 0)) :=
  ⟨get_route_first_match _ _ _ _ (by intro r hr; fin_cases hr <;> decide),
   get_route_first_match _ _ _ _ (by intro r hr; fin_cases hr <;> decide)⟩

/-- Claim C7, counterexample.  `Route.__eq__` compares `accepted_methods`
as Python LISTS, so `[GET, POST]` and `[POST, GET]` — equal as sets of
verbs — do not compare equal, and the "duplicate" is appended with result
`True` where the claim requires rejection with `False`. -/
theorem add_route_method_order_cex :
    ([HttpMethod.POST, HttpMethod.GET].contains HttpMethod.GET) = true ∧
    ([HttpMethod.POST, HttpMethod.GET].contains HttpMethod.POST) = true ∧
    ([HttpMethod.GET, HttpMethod.POST].contains HttpMethod.GET) = true ∧
    ([HttpMethod.GET, HttpMethod.POST].contains HttpMethod.POST) = true ∧
    Route.eq (Route.simple "/x" 1 [.GET, .POST])
      (Route.simple "/x" 2 [.POST, .GET]) = false ∧
    RouteSet.add_route [Route.simple "/x" 1 [.GET, .POST]]
        (Route.simple "/x" 2 [.POST, .GET]) =
      ([Route.simple "/x" 1 [.GET, .POST], Route.simple "/x" 2 [.POST, .GET]],
        true) := by
  decide

/-- Claim C7 (amended): `add_route` rejects the new route (returns `false`,
set unchanged) exactly when some already-registered route has the same
mapped URL and the same accepted-methods LIST (same verbs in the same
order, Python list equality); otherwise the route is appended and `true`
returned. -/
theorem add_route_dedup (routes : List Route) (r : Route) :
    RouteSet.add_route routes r =
      if ∃ r' ∈ routes, r'.mapped_url = r.mapped_url ∧
          r'.accepted_methods = r.accepted_methods then
        (routes, false)
      else (routes ++ [r], true) := by
  have hiff : (routes.any fun route => Route.eq route r) = true ↔
      ∃ r' ∈ routes, r'.mapped_url = r.mapped_url ∧
        r'.accepted_methods = r.accepted_methods := by
    rw [List.any_eq_true]
    constructor
    · rintro ⟨x, hx, hxe⟩
      have := of_decide_eq_true hxe
      exact ⟨x, hx, this.1, this.2⟩
    · rintro ⟨x, hx, h1, h2⟩
      exact ⟨x, hx, decide_eq_true ⟨h1, h2⟩⟩
  unfold RouteSet.add_route
  by_cases h : ∃ r' ∈ routes, r'.mapped_url = r.mapped_url ∧
      r'.accepted_methods = r.accepted_methods
  · rw [if_pos (hiff.mpr h), if_pos h]
  · rw [if_neg fun hc => h (hiff.mp hc), if_neg h]

/-- Claim C8, counterexample.  With the duplicated int placeholder name in
`"/<int:n>/<int:n>"` and path `"/abc/5"`, the segment `"abc"` sits at an int
placeholder and is not convertible, yet `validate_url` returns TRUE (the
later extraction overwrote `"abc"` with `"5"` in the dict before the checks
ran), and lookup returns the route instead of falling through. -/
theorem int_placeholder_dup_cex :
    typeFinderMatch "<int:n>" = some (some "int", "n") ∧
    (from_url_get_required_params "/<int:n>/<int:n>").lookup "n" =
      some .int ∧
    pyIntParse "abc" = none ∧
    simpleValidate "/<int:n>/<int:n>" "/abc/5" = some true ∧
    RouteSet.get_route [Route.simple "/<int:n>/<int:n>" 1 [.GET]]
      (Route.defaultRoute 0) "/abc/5" .GET =
      some (Route.simple "/<int:n>/<int:n>" 1 [.GET]) := by
  decide

/-- Claim C8 (amended): for a route whose template has distinct, covered
placeholder names (see C4) with an int-formatted placeholder named `nm`, and
a path whose aligned segment at that placeholder differs from the template
segment and is not int-convertible: `validate_url` returns false without
raising, lookup skips the route, a route set containing only it yields the
default route, and the default route's `parse_url` returns whatever handler
it currently holds — hence replaceable via `set_default_handler` — together
with an absent (`None`) parameter mapping. -/
theorem int_unconvertible_skipped (t p : String) (h : Nat)
    (ms : List HttpMethod) (rest : List Route) (dflt : Route) (m : HttpMethod)
    (hcov : namesCovered t = true) (hnd : (segMatchNames t).Nodup)
    (f rseg : String) (hz : (f, rseg) ∈ (splitSegs t).zip (splitSegs p))
    (hne : f ≠ rseg) (ty : Option String) (nm : String)
    (hm : typeFinderMatch f = some (ty, nm))
    (hfmt : (from_url_get_required_params t).lookup nm = some .int)
    (hraw : pyIntParse rseg = none) :
    simpleValidate t p = some false ∧
    RouteSet.get_route (Route.simple t h ms :: rest) dflt p m =
      RouteSet.get_route rest dflt p m ∧
    RouteSet.get_route [Route.simple t h ms] dflt p m = some dflt ∧
    (∀ dh : Nat, (Route.defaultRoute dh).parse_url p = some (dh, none)) := by
  have hval : simpleValidate t p = some false := by
    rw [validateSpec t p hcov hnd]
    by_cases hall : allConvOk t p = true
    · exfalso
      have hmem : (nm, rseg) ∈ extractedPairs t p :=
        mem_extractedPairsL _ _ f rseg hz hne ty nm hm
      have hc := List.all_eq_true.mp hall (nm, rseg) hmem
      unfold convOk at hc
      rw [hfmt] at hc
      simp [UrlParamFormatter.is_convertable, UrlParamFormatter.convert,
        hraw] at hc
    · have hfalse : allConvOk t p = false := by simpa using hall
      rw [hfalse, Bool.and_false]
  have hskip : ∀ rest' : List Route,
      RouteSet.get_route (Route.simple t h ms :: rest') dflt p m =
        RouteSet.get_route rest' dflt p m := fun rest' =>
    getRoute_skip _ _ _ _ _ (Or.inr hval)
  exact ⟨hval, hskip rest, hskip [], fun dh => rfl⟩

/-- Witness for C8's theorem at route `"/items/<int:id>"` and path
`"/items/abc"`. -/
theorem int_unconvertible_skipped_witness :
    simpleValidate "/items/<int:id>" "/items/abc" = some false ∧
    RouteSet.get_route [Route.simple "/items/<int:id>" 5 [.GET]]
      (Route.defaultRoute 9) "/items/abc" .GET =
      some (Route.defaultRoute 9) ∧
    Router.get_handler [Route.simple "/items/<int:id>" 5 [.GET]] 9
      "/items/abc" .GET = some (9, none) := by
  have hmain := int_unconvertible_skipped "/items/<int:id>" "/items/abc" 5
    [.GET] [] (Route.defaultRoute 9) .GET (by decide) (by decide)
    "<int:id>" "abc" (by decide) (by decide) (some "int") "id" (by decide)
    (by decide) (by decide)
  refine ⟨hmain.1, hmain.2.2.1, ?_⟩
  unfold Router.get_handler
  rw [hmain.2.2.1]
  rfl

/-- Claim C9: `Router.add_route` fails fast: a `SimpleRoute` handler with
empty `default_params` raises the configuration error before anything is
registered; a handler that is neither a `SimpleRoute` nor callable raises
the unsupported-handler error; a `SimpleRoute` handler with non-empty
`default_params` yields a `NestedRoute` wrapping it; and a plain callable
yields a `SimpleRoute` built from `(url, handler, accepted_methods)`. -/
theorem router_add_route_dispatch :
    (∀ (routes : List Route) (url mUrl : String) (mH : Nat)
        (mMs ms : List HttpMethod),
      Router.add_route routes url (.simpleRoute mUrl mH mMs) ms [] =
        .error "for NestedRoute default_params are required") ∧
    (∀ (routes : List Route) (url : String) (ms : List HttpMethod)
        (dp : List (String × String)),
      Router.add_route routes url .other ms dp =
        .error "routing not implemented for handler of this type") ∧
    (∀ (routes : List Route) (url mUrl : String) (mH : Nat)
        (mMs ms : List HttpMethod) (dp : List (String × String)),
      dp ≠ [] →
      Router.add_route routes url (.simpleRoute mUrl mH mMs) ms dp =
        .ok ((RouteSet.add_route routes
            (Route.nested url mUrl mH ms (nestedSuffix mUrl dp))).1,
          Route.nested url mUrl mH ms (nestedSuffix mUrl dp))) ∧
    (∀ (routes : List Route) (url : String) (hl : Nat)
        (ms : List HttpMethod) (dp : List (String × String)),
      Router.add_route routes url (.callable hl) ms dp =
        .ok ((RouteSet.add_route routes (Route.simple url hl ms)).1,
          Route.simple url hl ms)) := by
  refine ⟨fun routes url mUrl mH mMs ms => rfl,
    fun routes url ms dp => rfl, ?_, fun routes url hl ms dp => rfl⟩
  intro routes url mUrl mH mMs ms dp hdp
  cases dp with
  | nil => exact absurd rfl hdp
  | cons a as => rfl

/-- Witness for C9's theorem: the nested-route construction case with a
non-empty default-parameter mapping. -/
theorem router_add_route_dispatch_witness :
    Router.add_route [] "/n/<x>" (.simpleRoute "/a/<x>/<y>" 3 [.GET])
        [.GET] [("y", "d")] =
      .ok ((RouteSet.add_route []
          (Route.nested "/n/<x>" "/a/<x>/<y>" 3 [.GET]
            (nestedSuffix "/a/<x>/<y>" [("y", "d")]))).1,
        Route.nested "/n/<x>" "/a/<x>/<y>" 3 [.GET]
          (nestedSuffix "/a/<x>/<y>" [("y", "d")])) :=
  router_add_route_dispatch.2.2.1 [] "/n/<x>" "/a/<x>/<y>" 3 [.GET] [.GET]
    [("y", "d")] (by decide)

/-- Claim C10: `Router.add_route` returns the freshly constructed route and
discards `RouteSet.add_route`'s boolean.  Registering `"/x"` with handler 2
over an existing equal registration (handler 1) leaves the set unchanged and
still hands the caller the new `Route` value — one that is not in the set —
with a success (`Except.ok`) result carrying no sign of the rejection. -/
theorem router_add_route_returns_route :
    (∀ (routes : List Route) (url : String) (hl : Nat)
        (ms : List HttpMethod) (dp : List (String × String)),
      Router.add_route routes url (.callable hl) ms dp =
        .ok ((RouteSet.add_route routes (Route.simple url hl ms)).1,
          Route.simple url hl ms)) ∧
    RouteSet.add_route [Route.simple "/x" 1 [.GET]]
        (Route.simple "/x" 2 [.GET]) =
      ([Route.simple "/x" 1 [.GET]], false) ∧
    Router.add_route [Route.simple "/x" 1 [.GET]] "/x" (.callable 2)
        [.GET] [] =
      .ok ([Route.simple "/x" 1 [.GET]], Route.simple "/x" 2 [.GET]) ∧
    ([Route.simple "/x" 1 [.GET]].contains (Route.simple "/x" 2 [.GET])) =
      false := by
  exact ⟨fun routes url hl ms dp => rfl, by decide, by decide, by decide⟩
